import Mathlib

/-!
Verification of the data-room application (React/TypeScript frontend plus a
Flask backend described by the specification).  The frontend sources under
src/frontend and src/unnamed are embedded directly; the backend engine
(metadata repository, tree engine, search engine) is not in the available
sources, so the operations the claims need from it are modelled from the
specification text and marked as such in their doc comments.

Conventions of the embedding:
* JavaScript numbers used as ids, page numbers and sizes are embedded as Nat
  (they are non-negative integers everywhere the embedded code touches
  them); where a JS index expression can be negative, it is computed in Int.
* JS `array[i]` indexing is embedded as `List.get?` (guarded when the JS
  index can be negative): `none` models the `undefined` a JS out-of-bounds
  read yields.  Likewise reading an object field that its declared type does
  not have, or an identifier that is not in scope, is embedded as a lookup
  returning `none`.
* A fetch call is embedded by the request descriptor it builds (endpoint,
  method, whether the options object carries `credentials: "include"`).
-/

/-! ## JavaScript string trimming

`String.prototype.trim` removes leading and trailing whitespace.  The
whitespace class is embedded for the ASCII whitespace characters (space,
tab, line feed, vertical tab, form feed, carriage return). -/

/-- The JS whitespace test used by `trim`, restricted to ASCII. -/
def isJsWhitespace (c : Char) : Bool :=
  c = ' ' || c = '\t' || c = '\n' || c = '\r' || c = Char.ofNat 11 || c = Char.ofNat 12

/-- Trimming on the underlying character list: drop leading whitespace, then
drop trailing whitespace (via reverse). -/
def jsTrimList (l : List Char) : List Char :=
  ((l.dropWhile isJsWhitespace).reverse.dropWhile isJsWhitespace).reverse

/-- Embedding of JavaScript `s.trim()`. -/
def jsTrim (s : String) : String :=
  ⟨jsTrimList s.data⟩

/-- A string is empty or whitespace-only exactly when every character of it
is whitespace (the empty string satisfies this vacuously). -/
def whitespaceOnly (s : String) : Prop :=
  ∀ c ∈ s.data, isJsWhitespace c = true

instance (s : String) : Decidable (whitespaceOnly s) := by
  unfold whitespaceOnly; infer_instance

/-! ## SearchBar (src/frontend/src/components/SearchBar.tsx)

`handleSearch` (lines 23-45): stores the query, and if the trimmed query is
falsy (empty) it clears the displayed results (`setResults(null)`) and
returns without issuing any request; otherwise it fetches `/search?q=...`
with credentials included. -/

/-- What a call to handleSearch does besides storing the query text. -/
inductive SearchAction where
  | clearResults : SearchAction
  | sendRequest (query : String) : SearchAction
  deriving DecidableEq

namespace SearchBar

/-- Embedding of SearchBar.handleSearch (SearchBar.tsx lines 23-45): the
guard `if (!searchQuery.trim())` sets the results to null and returns;
otherwise the component issues the search fetch for the raw query. -/
def handleSearch (searchQuery : String) : SearchAction :=
  if jsTrim searchQuery = "" then SearchAction.clearResults
  else SearchAction.sendRequest searchQuery

end SearchBar

/-! ## CreateFolderDialog (src/unnamed/part_000)

`handleSubmit` (lines 34-41) calls `onConfirm(name.trim())` only when
`name.trim()` is truthy; the confirm button (lines 62-69) is disabled under
the same condition `!name.trim()`. -/

namespace CreateFolderDialog

/-- Embedding of CreateFolderDialog.handleSubmit: the value passed to the
onConfirm callback, or none when the callback is not invoked. -/
def handleSubmit (name : String) : Option String :=
  if jsTrim name = "" then none else some (jsTrim name)

/-- Embedding of the confirm button's disabled condition `!name.trim()`. -/
def confirmDisabled (name : String) : Bool :=
  jsTrim name == ""

end CreateFolderDialog

/-! ## RenameDialog (second unit of src/frontend/src/components/SearchBar.tsx)

`handleSubmit` (lines 149-155) calls `onConfirm(name.trim())` only when
`name.trim()` is truthy AND `name !== currentName`; the submit button
(line 180) is disabled when `!name.trim() || name === currentName`. -/

namespace RenameDialog

/-- Embedding of RenameDialog.handleSubmit: the value passed to the
onConfirm callback, or none when the callback is not invoked. -/
def handleSubmit (name currentName : String) : Option String :=
  if jsTrim name ≠ "" ∧ name ≠ currentName then some (jsTrim name) else none

/-- Embedding of the submit button's disabled condition. -/
def submitDisabled (name currentName : String) : Bool :=
  jsTrim name == "" || name == currentName

end RenameDialog

/-! ## formatBytes (src/frontend/src/App.tsx lines 27-33)

The real-valued expression `Math.floor(Math.log(size) / Math.log(1024))` is
embedded as `Nat.log 1024 size`, the floor of the base-1024 logarithm; the
clamp `Math.min(..., units.length - 1)` and the zero special case are taken
verbatim.  The rendered numeric value (`value.toFixed`) is floating-point
and is abstracted to the truncated quotient; the claim under verification
only concerns the zero case and the bounds of the unit lookup, which do not
depend on that abstraction.  `units[index]` is embedded as `List.get?`: a
none result models the `undefined` an out-of-bounds JS read yields. -/

/-- The units array of formatBytes. -/
def formatBytesUnits : List String := ["B", "KB", "MB", "GB", "TB"]

/-- The unit index chosen by formatBytes for a nonzero size:
`Math.min(Math.floor(Math.log(size) / Math.log(1024)), units.length - 1)`. -/
def formatBytesIndex (size : Nat) : Nat :=
  min (Nat.log 1024 size) (formatBytesUnits.length - 1)

/-- Embedding of formatBytes.  Some string is produced when every array read
is in bounds; none would model an out-of-bounds unit lookup. -/
def formatBytes (size : Nat) : Option String :=
  if size = 0 then some "0 B"
  else
    (formatBytesUnits.get? (formatBytesIndex size)).map
      (fun unit => toString (size / 1024 ^ formatBytesIndex size) ++ " " ++ unit)

/-! ## Metadata repository model

Modelled from the spec (the Flask backend is not among the sources): §3 DATA
MODEL.  A Folder row has an id, a name, a nullable parent reference (null
only for a dataroom root) and a creation timestamp; a File row has an id, a
name, a required parent folder reference, a size and a creation timestamp.
The repository state is the collection of both kinds of rows. -/

structure FolderRow where
  id : Nat
  name : String
  parentId : Option Nat
  createdAt : Nat
  deriving DecidableEq

structure FileRow where
  id : Nat
  name : String
  folderId : Nat
  sizeBytes : Nat
  createdAt : Nat
  deriving DecidableEq

structure Store where
  folders : List FolderRow
  files : List FileRow
  deriving DecidableEq

/-- The ids of the immediate child folders of a folder. -/
def childFolderIds (s : Store) (fid : Nat) : List Nat :=
  (s.folders.filter (fun f => f.parentId = some fid)).map (fun f => f.id)

/-- Modelled from the spec: §4.1 delete — "depth-first traversal collecting
all descendant file ids and folder ids".  Fuel-bounded depth-first traversal
collecting the folder and all descendant folder ids; with fuel at least the
number of folder rows it covers the whole subtree of an acyclic store. -/
def subtreeFolderIds (s : Store) : Nat → Nat → List Nat
  | 0, fid => [fid]
  | fuel + 1, fid =>
    fid :: (childFolderIds s fid).flatMap (subtreeFolderIds s fuel)

/-- The ids of the file rows living in any of the given folders. -/
def collectedFileIds (s : Store) (folderIds : List Nat) : List Nat :=
  (s.files.filter (fun fl => fl.folderId ∈ folderIds)).map (fun fl => fl.id)

/-- A single metadata row to delete inside the cascade transaction. -/
inductive RowRef where
  | folderRow (id : Nat)
  | fileRow (id : Nat)
  deriving DecidableEq

/-- Deleting one metadata row by id. -/
def deleteRow (s : Store) : RowRef → Store
  | RowRef.folderRow fid => { s with folders := s.folders.filter (fun f => !(f.id == fid)) }
  | RowRef.fileRow flid => { s with files := s.files.filter (fun fl => !(fl.id == flid)) }

/-- Modelled from the spec: §5 — each operation "opens a transaction against
the metadata repository, performs its reads/writes, and commits or rolls
back atomically".  The row deletions run in order; `failsAt` says whether
the i-th row operation fails.  A failure aborts the transaction (none);
success after all rows yields the written state. -/
def runTxOps : Store → List RowRef → (Nat → Bool) → Nat → Option Store
  | s, [], _, _ => some s
  | s, op :: rest, failsAt, i =>
    if failsAt i then none
    else runTxOps (deleteRow s op) rest failsAt (i + 1)

inductive EngineError where
  | notFound
  | forbidden
  | invalidArgument
  | txFailure
  deriving DecidableEq

/-- The row deletions of a cascade delete, in the spec's order: the
collected files first, then the collected folders (the whole subtree plus
the folder itself). -/
def cascadeOps (s : Store) (fid : Nat) : List RowRef :=
  (collectedFileIds s (subtreeFolderIds s s.folders.length fid)).map RowRef.fileRow ++
    (subtreeFolderIds s s.folders.length fid).map RowRef.folderRow

/-- Modelled from the spec: §4.1 delete (the backend tree engine is not in
src).  For a folder: Forbidden if it is a root; otherwise collect the whole
subtree depth-first (descendant folder ids and the file ids inside them),
then delete all metadata rows for the collected set plus the folder itself
inside one repository transaction.  On a partial failure the transaction
rolls back: the observable state is the original store. -/
def cascadeDeleteFolder (s : Store) (fid : Nat) (failsAt : Nat → Bool) :
    Store × Option EngineError :=
  match s.folders.find? (fun f => f.id = fid) with
  | none => (s, some EngineError.notFound)
  | some f =>
    if f.parentId = none then (s, some EngineError.forbidden)
    else
      match runTxOps s (cascadeOps s fid) failsAt 0 with
      | some s2 => (s2, none)
      | none => (s, some EngineError.txFailure)

/-- `DescendantPath s n a c` holds when folder id c is reached from folder
id a by following n child edges (n = 0 means c = a). -/
inductive DescendantPath (s : Store) : Nat → Nat → Nat → Prop where
  | refl (fid : Nat) : DescendantPath s 0 fid fid
  | step {n a b c : Nat} :
      b ∈ childFolderIds s a → DescendantPath s n b c → DescendantPath s (n + 1) a c

/-! ## Breadcrumbs (tree engine, modelled from the spec)

Modelled from the spec: §4.1 breadcrumbs — "walks parent references from
folder_id up to the root, inclusive of both ends, then reverses to produce
root-first order", failing with NotFound if the folder is absent and
rejecting a cyclic parent chain defensively rather than looping (embedded
as fuel exhaustion yielding none). -/

/-- The upward walk: the folder, its parent, ..., up to the root. -/
def walkUp (s : Store) : Nat → Nat → Option (List FolderRow)
  | 0, _ => none
  | fuel + 1, fid =>
    match s.folders.find? (fun f => f.id = fid) with
    | none => none
    | some f =>
      match f.parentId with
      | none => some [f]
      | some p => (walkUp s fuel p).map (fun rest => f :: rest)

/-- The depth of a folder: the number of parent edges to its root. -/
def depthOf (s : Store) : Nat → Nat → Option Nat
  | 0, _ => none
  | fuel + 1, fid =>
    match s.folders.find? (fun f => f.id = fid) with
    | none => none
    | some f =>
      match f.parentId with
      | none => some 0
      | some p => (depthOf s fuel p).map (fun d => d + 1)

/-- Modelled from the spec: root-first breadcrumbs for a folder.  Fuel one
more than the number of folder rows suffices for every acyclic store. -/
def breadcrumbs (s : Store) (fid : Nat) : Option (List FolderRow) :=
  (walkUp s (s.folders.length + 1) fid).map List.reverse

/-- The rendered breadcrumb button's disabled condition (App.tsx line 379):
`index === breadcrumbItems.length - 1`, so only the final (current-folder)
crumb is non-navigable. -/
def breadcrumbDisabled (index count : Nat) : Bool :=
  index == count - 1

/-! ## Folder listing (tree engine list_children, modelled from the spec)

Modelled from the spec: §4.1 list_children and §6 — the backend handler is
not in src.  Folders and files are paginated independently with their own
page/page_size parameters, each ordered by creation time then id ascending;
total_folders and total_files are full counts over the whole folder.  The
response carries the bit-exact field set of §6, which the frontend declares
as the FolderContents interface (src/frontend/src/types.ts lines 15-27). -/

/-- Stable ordering key from the spec: creation time then id, ascending. -/
def folderKeyLe (a b : FolderRow) : Prop :=
  a.createdAt < b.createdAt ∨ (a.createdAt = b.createdAt ∧ a.id ≤ b.id)

instance : DecidableRel folderKeyLe := by
  intro a b; unfold folderKeyLe; infer_instance

def fileKeyLe (a b : FileRow) : Prop :=
  a.createdAt < b.createdAt ∨ (a.createdAt = b.createdAt ∧ a.id ≤ b.id)

instance : DecidableRel fileKeyLe := by
  intro a b; unfold fileKeyLe; infer_instance

/-- The immediate child folder rows of a folder. -/
def childFolders (s : Store) (fid : Nat) : List FolderRow :=
  s.folders.filter (fun f => f.parentId = some fid)

/-- The file rows directly inside a folder. -/
def childFiles (s : Store) (fid : Nat) : List FileRow :=
  s.files.filter (fun fl => fl.folderId = fid)

/-- One page of a collection: pages are 1-based with a fixed page size. -/
def pageSlice {α : Type} (l : List α) (page size : Nat) : List α :=
  (l.drop ((page - 1) * size)).take size

/-- The folder-listing response record, mirroring the FolderContents
interface of src/frontend/src/types.ts lines 15-27. -/
structure FolderContentsResp where
  id : Nat
  name : String
  breadcrumbs : List FolderRow
  folders : List FolderRow
  files : List FileRow
  total_folders : Nat
  total_files : Nat
  folder_page : Nat
  folder_page_size : Nat
  file_page : Nat
  file_page_size : Nat
  deriving DecidableEq

/-- Modelled from the spec: list_children.  NotFound (none) when the folder
is absent; otherwise one independently paged slice of the sorted child
folders and of the sorted child files, with full counts as totals and the
supplied cursors echoed back. -/
def list_children (s : Store) (fid folderPage folderPageSize filePage filePageSize : Nat) :
    Option FolderContentsResp :=
  match s.folders.find? (fun f => f.id = fid) with
  | none => none
  | some f =>
    (breadcrumbs s fid).map (fun bc =>
      { id := f.id
        name := f.name
        breadcrumbs := bc
        folders := pageSlice ((childFolders s fid).insertionSort folderKeyLe) folderPage folderPageSize
        files := pageSlice ((childFiles s fid).insertionSort fileKeyLe) filePage filePageSize
        total_folders := (childFolders s fid).length
        total_files := (childFiles s fid).length
        folder_page := folderPage
        folder_page_size := folderPageSize
        file_page := filePage
        file_page_size := filePageSize })

/-- The field names of the FolderContents interface, transcribed in
declaration order from src/frontend/src/types.ts lines 15-27. -/
def folderContentsFieldNames : List String :=
  ["id", "name", "breadcrumbs", "folders", "files", "total_folders",
   "total_files", "folder_page", "folder_page_size", "file_page", "file_page_size"]

/-- The field names the spec (§6) requires of a folder-listing response,
transcribed from the spec sentence in its order. -/
def specFolderListingFieldNames : List String :=
  ["id", "name", "breadcrumbs", "folders", "files", "total_folders",
   "total_files", "folder_page", "folder_page_size", "file_page", "file_page_size"]

/-! ## App component (src/frontend/src/App.tsx) -/

structure QueryParam where
  key : String
  value : String
  deriving DecidableEq

/-- A fetch call site, by the request descriptor it builds: endpoint
pattern, HTTP method, and whether the fetch options carry
`credentials: "include"`. -/
structure ClientRequest where
  endpoint : String
  method : String
  credentialsInclude : Bool
  deriving DecidableEq

namespace AppMain

/-- Embedding of the query-string construction of loadFolder (App.tsx lines
61-75): separate folder_page and file_page cursors, each with its own page
size of 50, where an omitted option falls back to the corresponding piece
of component state (`options?.folderPage ?? folderPage`). -/
def loadFolderParams (folderPageState filePageState : Nat)
    (optFolderPage optFilePage : Option Nat) : List QueryParam :=
  let nextFolderPage := optFolderPage.getD folderPageState
  let nextFilePage := optFilePage.getD filePageState
  [ ⟨"folder_page", toString nextFolderPage⟩,
    ⟨"folder_page_size", "50"⟩,
    ⟨"file_page", toString nextFilePage⟩,
    ⟨"file_page_size", "50"⟩ ]

/-- The page-cursor identifiers declared in the App component (App.tsx lines
42-43: `folderPage` and `filePage` state) with their current values; looking
up any other identifier yields none, modelling a reference to an identifier
that is not in scope (a JS ReferenceError).  In particular `currentPage`,
which the pagination controls at lines 505-519 read, is not declared
anywhere in the component. -/
def appScope (folderPageState filePageState : Nat) : String → Option Nat :=
  fun ident =>
    if ident = "folderPage" then some folderPageState
    else if ident = "filePage" then some filePageState
    else none

/-- Reading a numeric field off a FolderContents value, per the declared
interface (types.ts lines 15-27): fields the interface does not declare —
such as the `page` and `page_size` the pagination controls at App.tsx lines
502-505 read — yield none (undefined). -/
def folderContentsNumField (r : FolderContentsResp) : String → Option Nat :=
  fun field =>
    if field = "id" then some r.id
    else if field = "total_folders" then some r.total_folders
    else if field = "total_files" then some r.total_files
    else if field = "folder_page" then some r.folder_page
    else if field = "folder_page_size" then some r.folder_page_size
    else if field = "file_page" then some r.file_page
    else if field = "file_page_size" then some r.file_page_size
    else none

/-- Embedding of the Next control's page expression (App.tsx line 519):
`currentPage + 1`, with `currentPage` looked up in the component scope. -/
def nextClickPageExpr (scope : String → Option Nat) : Option Nat :=
  (scope "currentPage").map (fun p => p + 1)

/-- Embedding of the Previous control's page expression (App.tsx line 511):
`currentPage - 1`. -/
def prevClickPageExpr (scope : String → Option Nat) : Option Nat :=
  (scope "currentPage").map (fun p => p - 1)

/-- Fetch sites of the App component and the SearchBar.  Endpoints with a
path id are written with a `:id` placeholder.  The file download (App.tsx
line 242) is a window.open navigation, not a fetch, and so has no fetch
credentials option; it is not listed here. -/
def loadFolderRequest : ClientRequest :=
  ⟨"/folders/:id/contents", "GET", true⟩

def loadRootRequest : ClientRequest :=
  ⟨"/folders/root", "GET", true⟩

def loadDataroomsRequest : ClientRequest :=
  ⟨"/datarooms", "GET", true⟩

def createFolderRequest : ClientRequest :=
  ⟨"/folders", "POST", false⟩

def renameFolderRequest : ClientRequest :=
  ⟨"/folders/:id", "PATCH", false⟩

def deleteFolderRequest : ClientRequest :=
  ⟨"/folders/:id", "DELETE", false⟩

def uploadFileRequest : ClientRequest :=
  ⟨"/files", "POST", false⟩

def renameFileRequest : ClientRequest :=
  ⟨"/files/:id", "PATCH", false⟩

def deleteFileRequest : ClientRequest :=
  ⟨"/files/:id", "DELETE", false⟩

def searchRequest : ClientRequest :=
  ⟨"/search", "GET", true⟩

/-- Every fetch request the client issues against the backend engine. -/
def appFetchRequests : List ClientRequest :=
  [loadFolderRequest, loadRootRequest, loadDataroomsRequest,
   createFolderRequest, renameFolderRequest, deleteFolderRequest,
   uploadFileRequest, renameFileRequest, deleteFileRequest, searchRequest]

end AppMain

/-! ## handleDeleteFolder navigation (src/frontend/src/App.tsx lines 186-210) -/

/-- A breadcrumb entry as the delete handler uses it (only the id). -/
structure CrumbSummary where
  id : Nat
  deriving DecidableEq

/-- The currently viewed folder: its id and its breadcrumbs. -/
structure CurrentView where
  id : Nat
  crumbs : List CrumbSummary
  deriving DecidableEq

/-- Where the client navigates after a successful folder delete. -/
inductive NavAction where
  | load (folderId : Nat)
  | resolveRoot
  | stay
  deriving DecidableEq

/-- JS array indexing with a possibly negative index: negative indices and
out-of-range indices read as undefined (none). -/
def jsIndex {α : Type} (l : List α) (i : Int) : Option α :=
  if i < 0 then none else l.get? i.toNat

/-- Embedding of the navigation decision of handleDeleteFolder (App.tsx
lines 197-206) after a successful delete of folder `deletedId`: if the
deleted folder is the one being viewed, go to
`breadcrumbs[breadcrumbs.length - 2]` when that read is defined, else
resolve the root; otherwise reload the viewed folder; with no viewed folder
nothing is loaded. -/
def handleDeleteFolderNav (current : Option CurrentView) (deletedId : Nat) : NavAction :=
  match current with
  | none => NavAction.stay
  | some cur =>
    if cur.id = deletedId then
      match jsIndex cur.crumbs ((cur.crumbs.length : Int) - 2) with
      | some parent => NavAction.load parent.id
      | none => NavAction.resolveRoot
    else NavAction.load cur.id

/-! ## Concrete sample data used by witnesses -/

/-- A concrete store: root (id 1), child folder A (id 2), grandchild B
(id 3), a file in B (id 10) and a file in the root (id 11). -/
def sampleStore : Store :=
  { folders :=
      [ ⟨1, "Acme Dataroom", none, 0⟩,
        ⟨2, "A", some 1, 1⟩,
        ⟨3, "B", some 2, 2⟩ ],
    files :=
      [ ⟨10, "doc.pdf", 3, 10, 3⟩,
        ⟨11, "top.pdf", 1, 20, 4⟩ ] }

/-- A concrete folder-listing response value. -/
def sampleResp : FolderContentsResp :=
  { id := 1, name := "Acme Dataroom", breadcrumbs := [⟨1, "Acme Dataroom", none, 0⟩],
    folders := [⟨2, "A", some 1, 1⟩], files := [⟨11, "top.pdf", 1, 20, 4⟩],
    total_folders := 60, total_files := 3,
    folder_page := 1, folder_page_size := 50, file_page := 1, file_page_size := 50 }

/-! ## Helper lemmas about trimming -/

theorem jsTrimList_eq_nil_of_all_ws {l : List Char}
    (h : ∀ c ∈ l, isJsWhitespace c = true) : jsTrimList l = [] := by
  unfold jsTrimList
  have h1 : l.dropWhile isJsWhitespace = [] := by
    rw [List.dropWhile_eq_nil_iff]
    intro x hx; exact h x hx
  rw [h1]
  simp

theorem jsTrim_eq_empty_of_whitespaceOnly {s : String}
    (h : whitespaceOnly s) : jsTrim s = "" := by
  unfold jsTrim
  rw [jsTrimList_eq_nil_of_all_ws h]

/-- A nonempty trim result contains a non-whitespace character (its first
character, since `dropWhile` stopped there). -/
theorem exists_not_ws_of_jsTrimList_ne_nil {l : List Char}
    (h : jsTrimList l ≠ []) : ∃ c ∈ jsTrimList l, isJsWhitespace c = false := by
  unfold jsTrimList at h ⊢
  have hne : ((l.dropWhile isJsWhitespace).reverse.dropWhile isJsWhitespace) ≠ [] := by
    intro h0; apply h; rw [h0]; rfl
  refine ⟨((l.dropWhile isJsWhitespace).reverse.dropWhile isJsWhitespace).head hne, ?_, ?_⟩
  · rw [List.mem_reverse]; exact List.head_mem hne
  · exact List.head_dropWhile_not isJsWhitespace (l.dropWhile isJsWhitespace).reverse hne

theorem jsTrim_nonempty_not_whitespaceOnly {s : String}
    (h : jsTrim s ≠ "") : ¬ whitespaceOnly (jsTrim s) := by
  intro hws
  have hl : jsTrimList s.data ≠ [] := by
    intro h0; apply h; unfold jsTrim; rw [h0]
  obtain ⟨c, hc, hcf⟩ := exists_not_ws_of_jsTrimList_ne_nil hl
  have ht : isJsWhitespace c = true := hws c hc
  rw [hcf] at ht
  exact Bool.noConfusion ht

/-! ## Claim C5 -/

/-- C5: for every query string that is empty or consists only of whitespace,
handleSearch clears any displayed results and issues no search request. -/
theorem search_whitespace_query_clears_and_sends_nothing (q : String)
    (h : whitespaceOnly q) : SearchBar.handleSearch q = SearchAction.clearResults := by
  unfold SearchBar.handleSearch
  rw [if_pos (jsTrim_eq_empty_of_whitespaceOnly h)]

theorem search_whitespace_query_clears_and_sends_nothing_witness :
    whitespaceOnly "   " ∧ SearchBar.handleSearch "   " = SearchAction.clearResults :=
  ⟨by decide, search_whitespace_query_clears_and_sends_nothing "   " (by decide)⟩

/-! ## Claim C6 -/

/-- C6: the create-folder dialog invokes its confirm callback only with the
trimmed input, which is never empty or whitespace-only. -/
theorem createFolder_confirm_trimmed_nonempty (name s : String)
    (h : CreateFolderDialog.handleSubmit name = some s) :
    s = jsTrim name ∧ ¬ whitespaceOnly s := by
  unfold CreateFolderDialog.handleSubmit at h
  by_cases he : jsTrim name = ""
  · rw [if_pos he] at h; exact Option.noConfusion h
  · rw [if_neg he] at h
    have hs : s = jsTrim name := (Option.some.injEq _ _ ▸ h).symm
    subst hs
    exact ⟨rfl, jsTrim_nonempty_not_whitespaceOnly he⟩

theorem createFolder_confirm_trimmed_nonempty_witness :
    "hi" = jsTrim "  hi " ∧ ¬ whitespaceOnly "hi" :=
  createFolder_confirm_trimmed_nonempty "  hi " "hi" (by decide)

/-! ## Claim C7 -/

/-- C7: the rename dialog invokes its confirm callback only with the trimmed
input, never empty or whitespace-only, and never when the typed name is
identical to the current name. -/
theorem rename_confirm_trimmed_nonempty_changed (name currentName s : String)
    (h : RenameDialog.handleSubmit name currentName = some s) :
    s = jsTrim name ∧ ¬ whitespaceOnly s ∧ name ≠ currentName := by
  unfold RenameDialog.handleSubmit at h
  by_cases hc : jsTrim name ≠ "" ∧ name ≠ currentName
  · rw [if_pos hc] at h
    have hs : s = jsTrim name := (Option.some.injEq _ _ ▸ h).symm
    subst hs
    exact ⟨rfl, jsTrim_nonempty_not_whitespaceOnly hc.1, hc.2⟩
  · rw [if_neg hc] at h; exact Option.noConfusion h

theorem rename_confirm_trimmed_nonempty_changed_witness :
    "hi" = jsTrim " hi " ∧ ¬ whitespaceOnly "hi" ∧ " hi " ≠ "old" :=
  rename_confirm_trimmed_nonempty_changed " hi " "old" "hi" (by decide)

/-! ## Claim C10 -/

/-- C10: formatBytes is total and in-bounds on non-negative sizes: size 0
yields "0 B", and for every size the chosen unit index is clamped below the
length of the units array, so the unit lookup always succeeds. -/
theorem formatBytes_total_and_in_bounds :
    formatBytes 0 = some "0 B" ∧
    ∀ size : Nat,
      formatBytesIndex size < formatBytesUnits.length ∧ (formatBytes size).isSome = true := by
  refine ⟨rfl, fun size => ?_⟩
  have hlt : formatBytesIndex size < formatBytesUnits.length := by
    have hle : formatBytesIndex size ≤ formatBytesUnits.length - 1 :=
      min_le_right _ _
    have h5 : formatBytesUnits.length = 5 := by decide
    omega
  refine ⟨hlt, ?_⟩
  unfold formatBytes
  by_cases h0 : size = 0
  · rw [if_pos h0]; rfl
  · rw [if_neg h0]
    rcases List.get?_eq_get hlt with hget
    rw [hget]
    rfl

/-! ## Claim C8 -/

/-- C8 counterexample: not every engine request the client issues carries
credentials — the create-folder fetch (App.tsx lines 149-153) is a client
request with no credentials option at all, so the claim as stated is
false. -/
theorem some_request_lacks_credentials :
    ∃ r ∈ AppMain.appFetchRequests, r.credentialsInclude = false :=
  ⟨AppMain.createFolderRequest, by decide, rfl⟩

/-- C8 amended: only the read-side requests — folder contents, root
resolution, dataroom listing, and search — are sent with
`credentials: "include"`; every mutation request (create folder, rename
folder, delete folder, upload file, rename file, delete file) is issued
without any credentials option. -/
theorem read_requests_send_credentials_mutations_do_not :
    (∀ r ∈ [AppMain.loadFolderRequest, AppMain.loadRootRequest,
            AppMain.loadDataroomsRequest, AppMain.searchRequest],
        r.credentialsInclude = true) ∧
    (∀ r ∈ [AppMain.createFolderRequest, AppMain.renameFolderRequest,
            AppMain.deleteFolderRequest, AppMain.uploadFileRequest,
            AppMain.renameFileRequest, AppMain.deleteFileRequest],
        r.credentialsInclude = false) := by
  constructor <;> (intro r hr; fin_cases hr <;> rfl)

theorem read_requests_send_credentials_mutations_do_not_witness :
    AppMain.loadFolderRequest.credentialsInclude = true ∧
    AppMain.createFolderRequest.credentialsInclude = false :=
  ⟨read_requests_send_credentials_mutations_do_not.1 AppMain.loadFolderRequest (by decide),
   read_requests_send_credentials_mutations_do_not.2 AppMain.createFolderRequest (by decide)⟩

/-! ## Claim C9 -/

/-- C9: after a successful delete of the currently viewed folder the client
navigates to the second-to-last breadcrumb entry (the parent), falling back
to resolving the root exactly when no such entry exists (fewer than two
breadcrumbs); deleting any other folder reloads the currently viewed
folder. -/
theorem delete_navigates_to_parent_or_root (cur : CurrentView) (deletedId : Nat) :
    (cur.id = deletedId → 2 ≤ cur.crumbs.length →
      ∃ p, cur.crumbs.get? (cur.crumbs.length - 2) = some p ∧
        handleDeleteFolderNav (some cur) deletedId = NavAction.load p.id) ∧
    (cur.id = deletedId → cur.crumbs.length < 2 →
      handleDeleteFolderNav (some cur) deletedId = NavAction.resolveRoot) ∧
    (cur.id ≠ deletedId →
      handleDeleteFolderNav (some cur) deletedId = NavAction.load cur.id) := by
  refine ⟨fun heq hlen => ?_, fun heq hlen => ?_, fun hne => ?_⟩
  · have hidx : ((cur.crumbs.length : Int) - 2) = ((cur.crumbs.length - 2 : Nat) : Int) := by
      omega
    have hnonneg : ¬ ((cur.crumbs.length : Int) - 2 < 0) := by omega
    have hlt : cur.crumbs.length - 2 < cur.crumbs.length := by omega
    obtain ⟨p, hp⟩ : ∃ p, cur.crumbs.get? (cur.crumbs.length - 2) = some p :=
      ⟨cur.crumbs.get ⟨_, hlt⟩, List.get?_eq_get hlt⟩
    refine ⟨p, hp, ?_⟩
    simp only [handleDeleteFolderNav, jsIndex]
    rw [if_pos heq, if_neg hnonneg, hidx, Int.toNat_natCast, hp]
  · simp only [handleDeleteFolderNav, jsIndex]
    rw [if_pos heq]
    interval_cases h : cur.crumbs.length
    · norm_num
    · norm_num
  · simp only [handleDeleteFolderNav]
    rw [if_neg hne]

theorem delete_navigates_to_parent_or_root_witness :
    ∃ p, (CurrentView.mk 5 [⟨1⟩, ⟨3⟩]).crumbs.get?
        ((CurrentView.mk 5 [⟨1⟩, ⟨3⟩]).crumbs.length - 2) = some p ∧
      handleDeleteFolderNav (some (CurrentView.mk 5 [⟨1⟩, ⟨3⟩])) 5 = NavAction.load p.id :=
  (delete_navigates_to_parent_or_root (CurrentView.mk 5 [⟨1⟩, ⟨3⟩]) 5).1 rfl (by decide)

/-! ## Claim C1 -/

/-- C1: the folder-contents request side does supply separate folder_page
and file_page cursors with their own page sizes (loadFolder, App.tsx lines
61-75), but the paging controls (lines 502-529) do not advance them as two
distinct values: they read the single undeclared identifier `currentPage`
(so the Previous/Next page expressions are undefined) and consult
`currentFolder.page` / `currentFolder.page_size`, fields the FolderContents
interface does not declare. -/
theorem pagination_request_independent_but_controls_broken :
    AppMain.loadFolderParams 3 7 (some 4) none =
      [⟨"folder_page", "4"⟩, ⟨"folder_page_size", "50"⟩,
       ⟨"file_page", "7"⟩, ⟨"file_page_size", "50"⟩] ∧
    AppMain.nextClickPageExpr (AppMain.appScope 3 7) = none ∧
    AppMain.prevClickPageExpr (AppMain.appScope 3 7) = none ∧
    AppMain.folderContentsNumField sampleResp "page" = none ∧
    AppMain.folderContentsNumField sampleResp "page_size" = none ∧
    AppMain.folderContentsNumField sampleResp "folder_page" = some 1 ∧
    AppMain.folderContentsNumField sampleResp "file_page" = some 1 := by
  refine ⟨rfl, rfl, rfl, rfl, rfl, rfl, rfl⟩

/-! ## Helper lemmas for cascade delete -/

/-- A committed transaction is exactly the fold of its row deletions. -/
theorem runTxOps_commit :
    ∀ (ops : List RowRef) (s s2 : Store) (failsAt : Nat → Bool) (i : Nat),
      runTxOps s ops failsAt i = some s2 → s2 = ops.foldl deleteRow s := by
  intro ops
  induction ops with
  | nil =>
    intro s s2 failsAt i h
    simp only [runTxOps] at h
    injection h with h
    rw [List.foldl_nil, h]
  | cons op rest ih =>
    intro s s2 failsAt i h
    simp only [runTxOps] at h
    by_cases hf : failsAt i
    · rw [if_pos hf] at h; exact Option.noConfusion h
    · rw [if_neg hf] at h
      rw [List.foldl_cons]
      exact ih _ _ _ _ h

theorem foldl_deleteRow_fileRows (ids : List Nat) (s : Store) :
    (ids.map RowRef.fileRow).foldl deleteRow s =
      { s with files := s.files.filter (fun fl => !(ids.elem fl.id)) } := by
  induction ids generalizing s with
  | nil =>
    cases s
    simp [List.foldl_nil]
  | cons a rest ih =>
    simp only [List.map_cons, List.foldl_cons]
    rw [ih]
    cases s with
    | mk folders files =>
      simp only [deleteRow]
      congr 1
      rw [List.filter_filter]
      apply List.filter_congr
      intro x _
      cases hxa : x.id == a with
      | false =>
        have hne : ¬ x.id = a := fun he => by rw [he] at hxa; simp at hxa
        simp [List.elem_cons, hxa, hne]
      | true =>
        have he : x.id = a := by exact_mod_cast eq_of_beq hxa
        simp [List.elem_cons, hxa, he]

theorem foldl_deleteRow_folderRows (ids : List Nat) (s : Store) :
    (ids.map RowRef.folderRow).foldl deleteRow s =
      { s with folders := s.folders.filter (fun f => !(ids.elem f.id)) } := by
  induction ids generalizing s with
  | nil =>
    cases s
    simp [List.foldl_nil]
  | cons a rest ih =>
    simp only [List.map_cons, List.foldl_cons]
    rw [ih]
    cases s with
    | mk folders files =>
      simp only [deleteRow]
      congr 1
      rw [List.filter_filter]
      apply List.filter_congr
      intro x _
      cases hxa : x.id == a with
      | false =>
        have hne : ¬ x.id = a := fun he => by rw [he] at hxa; simp at hxa
        simp [List.elem_cons, hxa, hne]
      | true =>
        have he : x.id = a := by exact_mod_cast eq_of_beq hxa
        simp [List.elem_cons, hxa, he]

/-- Folding the full cascade op list removes exactly the collected file rows
and the collected folder rows. -/
theorem foldl_deleteRow_cascadeOps (s : Store) (fid : Nat) :
    (cascadeOps s fid).foldl deleteRow s =
      { folders := s.folders.filter
          (fun f => !((subtreeFolderIds s s.folders.length fid).elem f.id)),
        files := s.files.filter
          (fun fl => !((collectedFileIds s (subtreeFolderIds s s.folders.length fid)).elem fl.id)) } := by
  unfold cascadeOps
  rw [List.foldl_append, foldl_deleteRow_fileRows, foldl_deleteRow_folderRows]

/-- The fuel-bounded depth-first collection contains an id exactly when it
is reachable from the start folder by at most `fuel` child edges. -/
theorem mem_subtreeFolderIds_iff (s : Store) :
    ∀ (fuel fid d : Nat),
      d ∈ subtreeFolderIds s fuel fid ↔ ∃ n, n ≤ fuel ∧ DescendantPath s n fid d := by
  intro fuel
  induction fuel with
  | zero =>
    intro fid d
    simp only [subtreeFolderIds, List.mem_singleton]
    constructor
    · rintro rfl; exact ⟨0, Nat.le_refl 0, DescendantPath.refl _⟩
    · rintro ⟨n, hn, p⟩
      have hn0 : n = 0 := Nat.le_zero.mp hn
      subst hn0
      cases p
      rfl
  | succ fuel ih =>
    intro fid d
    simp only [subtreeFolderIds, List.mem_cons, List.mem_flatMap]
    constructor
    · rintro (rfl | ⟨c, hc, hd⟩)
      · exact ⟨0, Nat.zero_le _, DescendantPath.refl _⟩
      · obtain ⟨n, hn, p⟩ := (ih c d).mp hd
        exact ⟨n + 1, Nat.succ_le_succ hn, DescendantPath.step hc p⟩
    · rintro ⟨n, hn, p⟩
      cases p with
      | refl => exact Or.inl rfl
      | step hb p2 =>
        rename_i m b
        refine Or.inr ⟨b, hb, (ih b d).mpr ⟨m, ?_, p2⟩⟩
        omega

/-! ## Claim C2 -/

/-- C2: cascade delete is all-or-nothing at the metadata level.  For every
folder delete, the observable store is either unchanged (NotFound,
Forbidden, or any transaction failure partway through, which rolls back
fully) or has exactly the whole collected subtree removed: the folder rows
remaining are those outside the collected subtree id set, the file rows
remaining are those outside the collected file id set, and no folder row
reachable from the deleted folder (by at most as many child edges as there
are folder rows) survives. -/
theorem cascade_delete_all_or_nothing (s : Store) (fid : Nat) (failsAt : Nat → Bool) :
    (cascadeDeleteFolder s fid failsAt).1 = s ∨
    ((cascadeDeleteFolder s fid failsAt).1.folders =
        s.folders.filter (fun f => !((subtreeFolderIds s s.folders.length fid).elem f.id)) ∧
     (cascadeDeleteFolder s fid failsAt).1.files =
        s.files.filter
          (fun fl => !((collectedFileIds s (subtreeFolderIds s s.folders.length fid)).elem fl.id)) ∧
     ∀ d n, n ≤ s.folders.length → DescendantPath s n fid d →
       ∀ f ∈ (cascadeDeleteFolder s fid failsAt).1.folders, f.id ≠ d) := by
  cases hfind : s.folders.find? (fun f => f.id = fid) with
  | none =>
    simp only [cascadeDeleteFolder, hfind]
    exact Or.inl trivial
  | some f =>
    by_cases hroot : f.parentId = none
    · simp only [cascadeDeleteFolder, hfind, if_pos hroot]
      exact Or.inl trivial
    · cases hrun : runTxOps s (cascadeOps s fid) failsAt 0 with
      | none =>
        simp only [cascadeDeleteFolder, hfind, if_neg hroot, hrun]
        exact Or.inl trivial
      | some s2 =>
        simp only [cascadeDeleteFolder, hfind, if_neg hroot, hrun]
        have h2 : s2 = (cascadeOps s fid).foldl deleteRow s :=
          runTxOps_commit _ _ _ _ _ hrun
        rw [foldl_deleteRow_cascadeOps] at h2
        refine Or.inr ⟨by rw [h2], by rw [h2], ?_⟩
        intro d n hn p g hg hgd
        rw [h2] at hg
        have hmem := List.mem_filter.mp hg
        have hd : d ∈ subtreeFolderIds s s.folders.length fid :=
          (mem_subtreeFolderIds_iff s _ fid d).mpr ⟨n, hn, p⟩
        have helem : (subtreeFolderIds s s.folders.length fid).elem g.id = true := by
          rw [List.elem_iff]
          rw [hgd]
          exact hd
        rw [helem] at hmem
        exact Bool.noConfusion hmem.2

theorem cascade_delete_all_or_nothing_witness :
    (cascadeDeleteFolder sampleStore 2 (fun _ => false)).1 = sampleStore ∨
    ((cascadeDeleteFolder sampleStore 2 (fun _ => false)).1.folders =
        sampleStore.folders.filter
          (fun f => !((subtreeFolderIds sampleStore sampleStore.folders.length 2).elem f.id)) ∧
     (cascadeDeleteFolder sampleStore 2 (fun _ => false)).1.files =
        sampleStore.files.filter
          (fun fl => !((collectedFileIds sampleStore
              (subtreeFolderIds sampleStore sampleStore.folders.length 2)).elem fl.id)) ∧
     ∀ d n, n ≤ sampleStore.folders.length → DescendantPath sampleStore n 2 d →
       ∀ f ∈ (cascadeDeleteFolder sampleStore 2 (fun _ => false)).1.folders, f.id ≠ d) :=
  cascade_delete_all_or_nothing sampleStore 2 (fun _ => false)

/-! ## Helper lemma for breadcrumbs -/

/-- The upward walk, when it succeeds, is nonempty, starts at the requested
folder, ends at a root row, and its length is the folder's depth plus one. -/
theorem walkUp_spec (s : Store) :
    ∀ (fuel fid : Nat) (l : List FolderRow), walkUp s fuel fid = some l →
      (∃ f, l.head? = some f ∧ f.id = fid) ∧
      (∃ r, l.getLast? = some r ∧ r.parentId = none) ∧
      depthOf s fuel fid = some (l.length - 1) ∧ l ≠ [] := by
  intro fuel
  induction fuel with
  | zero =>
    intro fid l h
    exact Option.noConfusion h
  | succ fuel ih =>
    intro fid l h
    cases hfind : s.folders.find? (fun f => f.id = fid) with
    | none =>
      simp only [walkUp, hfind] at h
      exact Option.noConfusion h
    | some f =>
      have hfid : f.id = fid := by
        have hpred := List.find?_some hfind
        simpa using hpred
      cases hp : f.parentId with
      | none =>
        simp only [walkUp, hfind, hp] at h
        injection h with h
        subst h
        refine ⟨⟨f, rfl, hfid⟩, ⟨f, rfl, hp⟩, ?_, by simp⟩
        simp only [depthOf, hfind, hp]
        rfl
      | some p =>
        simp only [walkUp, hfind, hp] at h
        cases hw : walkUp s fuel p with
        | none => rw [hw] at h; exact Option.noConfusion h
        | some rest =>
          rw [hw] at h
          simp only [Option.map_some'] at h
          injection h with h
          subst h
          obtain ⟨⟨g, hg, hgid⟩, ⟨r, hr, hrp⟩, hdep, hne⟩ := ih p rest hw
          have hlen : 1 ≤ rest.length := List.length_pos.mpr hne
          refine ⟨⟨f, rfl, hfid⟩, ⟨r, ?_, hrp⟩, ?_, by simp⟩
          · cases rest with
            | nil => exact absurd rfl hne
            | cons b bs => rw [List.getLast?_cons_cons]; exact hr
          · simp only [depthOf, hfind, hp, hdep, Option.map_some', List.length_cons]
            congr 1
            omega

/-! ## Claim C4 -/

/-- C4: a successful breadcrumbs sequence is root-first — it ends with the
requested folder, starts with a root row (null parent), and has length equal
to the folder's depth plus one — and the client renders it with exactly the
final (current-folder) entry non-navigable. -/
theorem breadcrumbs_root_first_ends_current (s : Store) (fid : Nat) (l : List FolderRow)
    (h : breadcrumbs s fid = some l) :
    (∃ f, l.getLast? = some f ∧ f.id = fid) ∧
    (∃ r, l.head? = some r ∧ r.parentId = none) ∧
    (∃ d, depthOf s (s.folders.length + 1) fid = some d ∧ l.length = d + 1) ∧
    (∀ i < l.length, breadcrumbDisabled i l.length = true ↔ i = l.length - 1) := by
  unfold breadcrumbs at h
  cases hw : walkUp s (s.folders.length + 1) fid with
  | none => rw [hw] at h; exact Option.noConfusion h
  | some m =>
    rw [hw] at h
    simp only [Option.map_some'] at h
    injection h with h
    subst h
    obtain ⟨⟨f, hf, hfid⟩, ⟨r, hr, hrp⟩, hdep, hne⟩ := walkUp_spec s _ fid m hw
    have hlen : 1 ≤ m.length := List.length_pos.mpr hne
    refine ⟨⟨f, ?_, hfid⟩, ⟨r, ?_, hrp⟩, ⟨m.length - 1, ?_, ?_⟩, ?_⟩
    · rw [List.getLast?_reverse]; exact hf
    · rw [List.head?_reverse]; exact hr
    · exact hdep
    · rw [List.length_reverse]; omega
    · intro i hi
      unfold breadcrumbDisabled
      simp only [beq_iff_eq]

theorem breadcrumbs_root_first_ends_current_witness :
    (∃ f, ([⟨1, "Acme Dataroom", none, 0⟩, ⟨2, "A", some 1, 1⟩,
        ⟨3, "B", some 2, 2⟩] : List FolderRow).getLast? = some f ∧ f.id = 3) ∧
    (∃ r, ([⟨1, "Acme Dataroom", none, 0⟩, ⟨2, "A", some 1, 1⟩,
        ⟨3, "B", some 2, 2⟩] : List FolderRow).head? = some r ∧ r.parentId = none) ∧
    (∃ d, depthOf sampleStore (sampleStore.folders.length + 1) 3 = some d ∧
      ([⟨1, "Acme Dataroom", none, 0⟩, ⟨2, "A", some 1, 1⟩,
        ⟨3, "B", some 2, 2⟩] : List FolderRow).length = d + 1) ∧
    (∀ i < ([⟨1, "Acme Dataroom", none, 0⟩, ⟨2, "A", some 1, 1⟩,
        ⟨3, "B", some 2, 2⟩] : List FolderRow).length,
      breadcrumbDisabled i ([⟨1, "Acme Dataroom", none, 0⟩, ⟨2, "A", some 1, 1⟩,
        ⟨3, "B", some 2, 2⟩] : List FolderRow).length = true ↔
        i = ([⟨1, "Acme Dataroom", none, 0⟩, ⟨2, "A", some 1, 1⟩,
        ⟨3, "B", some 2, 2⟩] : List FolderRow).length - 1) :=
  breadcrumbs_root_first_ends_current sampleStore 3
    [⟨1, "Acme Dataroom", none, 0⟩, ⟨2, "A", some 1, 1⟩, ⟨3, "B", some 2, 2⟩] (by decide)

/-! ## Claim C3 -/

/-- C3: the folder-listing response has exactly the claimed field set (the
FolderContents interface field names transcribed from the source equal the
spec's field list), and the totals in every successful listing are full
counts over the whole folder — independent of the supplied page cursors —
with the cursors echoed back unchanged. -/
theorem folder_listing_shape_and_full_totals :
    folderContentsFieldNames = specFolderListingFieldNames ∧
    ∀ (s : Store) (fid fp fps flp flps : Nat) (r : FolderContentsResp),
      list_children s fid fp fps flp flps = some r →
        r.total_folders = (childFolders s fid).length ∧
        r.total_files = (childFiles s fid).length ∧
        r.folder_page = fp ∧ r.folder_page_size = fps ∧
        r.file_page = flp ∧ r.file_page_size = flps := by
  refine ⟨rfl, ?_⟩
  intro s fid fp fps flp flps r h
  unfold list_children at h
  cases hfind : s.folders.find? (fun f => f.id = fid) with
  | none => rw [hfind] at h; exact Option.noConfusion h
  | some f =>
    rw [hfind] at h
    cases hbc : breadcrumbs s fid with
    | none => rw [hbc] at h; exact Option.noConfusion h
    | some bc =>
      rw [hbc] at h
      simp only [Option.map_some'] at h
      injection h with h
      subst h
      exact ⟨rfl, rfl, rfl, rfl, rfl, rfl⟩

theorem folder_listing_shape_and_full_totals_witness :
    (FolderContentsResp.mk 1 "Acme Dataroom" [⟨1, "Acme Dataroom", none, 0⟩]
        [⟨2, "A", some 1, 1⟩] [⟨11, "top.pdf", 1, 20, 4⟩] 1 1 1 50 1 50).total_folders =
      (childFolders sampleStore 1).length ∧
    (FolderContentsResp.mk 1 "Acme Dataroom" [⟨1, "Acme Dataroom", none, 0⟩]
        [⟨2, "A", some 1, 1⟩] [⟨11, "top.pdf", 1, 20, 4⟩] 1 1 1 50 1 50).total_files =
      (childFiles sampleStore 1).length ∧
    (FolderContentsResp.mk 1 "Acme Dataroom" [⟨1, "Acme Dataroom", none, 0⟩]
        [⟨2, "A", some 1, 1⟩] [⟨11, "top.pdf", 1, 20, 4⟩] 1 1 1 50 1 50).folder_page = 1 ∧
    (FolderContentsResp.mk 1 "Acme Dataroom" [⟨1, "Acme Dataroom", none, 0⟩]
        [⟨2, "A", some 1, 1⟩] [⟨11, "top.pdf", 1, 20, 4⟩] 1 1 1 50 1 50).folder_page_size = 50 ∧
    (FolderContentsResp.mk 1 "Acme Dataroom" [⟨1, "Acme Dataroom", none, 0⟩]
        [⟨2, "A", some 1, 1⟩] [⟨11, "top.pdf", 1, 20, 4⟩] 1 1 1 50 1 50).file_page = 1 ∧
    (FolderContentsResp.mk 1 "Acme Dataroom" [⟨1, "Acme Dataroom", none, 0⟩]
        [⟨2, "A", some 1, 1⟩] [⟨11, "top.pdf", 1, 20, 4⟩] 1 1 1 50 1 50).file_page_size = 50 :=
  folder_listing_shape_and_full_totals.2 sampleStore 1 1 50 1 50
    (FolderContentsResp.mk 1 "Acme Dataroom" [⟨1, "Acme Dataroom", none, 0⟩]
        [⟨2, "A", some 1, 1⟩] [⟨11, "top.pdf", 1, 20, 4⟩] 1 1 1 50 1 50) (by decide)
